import Mathlib

/-! Verification of the `sonyflakex` distributed ID generator.

A shallow embedding of `sonyflakex` (Generator construction, the machine-ID
lease lifecycle, `Stop`, and the identifier encoder) together with proofs of
the specified properties.

Modelling conventions:
* Go `time.Time` and `time.Duration` are both modelled as `Int` nanoseconds
  (instants are nanoseconds since the Unix epoch).  `t.After(u)` is `t > u`.
* The external coordination store (`Repo`) is modelled by the data it returns;
  the calls a run makes are recorded in an explicit trace (`RepoCall`).
* The external sonyflake encoder is not part of this repository's sources;
  its operations are modelled from the spec (§3, §4.1) and are marked
  `Modelled from the spec:` below.  The outcome of the external
  `sonyflake.New` call is passed to `New` as an explicit parameter.
-/

namespace Sonyflakex

/-- Nanoseconds in one millisecond (`time.Millisecond`). -/
def nsPerMs : Int := 1000000

/-- Nanoseconds in one second (`time.Second`). -/
def nsPerSec : Int := 1000000000

/-- The instant `time.Date(2025, 1, 1, 0, 0, 0, 0, time.UTC)` as nanoseconds since the
Unix epoch (1735689600 s). -/
def defaultStartTime : Int := 1735689600 * nsPerSec

/-- Default machine-ID field width (`defaultBitsMachine = 16`). -/
def defaultBitsMachine : Nat := 16

/-- Default sequence field width (`defaultBitsSequence = 8`). -/
def defaultBitsSequence : Nat := 8

/-- Time field width, from the spec's 39/16/8 canonical split. -/
def bitsTime : Nat := 39

/-- The part of `generatorConfig` that the claims depend on: the sonyflake
settings `StartTime` and `TimeUnit`, plus the lease `ttl` and `renewFreq`. -/
structure generatorConfig where
  startTime : Int
  timeUnit : Int
  ttl : Int
  renewFreq : Int
deriving Repr, DecidableEq

/-- Source `defaultGeneratorConfig`: StartTime 2025-01-01, TimeUnit 10ms,
TTL 30s, RenewFreq 10s. -/
def defaultGeneratorConfig : generatorConfig :=
  { startTime := defaultStartTime
    timeUnit := 10 * nsPerMs
    ttl := 30 * nsPerSec
    renewFreq := 10 * nsPerSec }

/-- The errors a failing `Option` closure can produce. -/
inductive OptionErr where
  | invalidStartTime       -- ErrInvalidStartTime
  | invalidTimeUnit        -- ErrInvalidTimeUnit
  | ttlNotPositive         -- "ttl must be positive"
  | renewFreqNotPositive   -- "renew frequency must be positive"
deriving Repr, DecidableEq

/-- The configuration options, as data.  Each constructor corresponds to one
`With*` option constructor in the source. -/
inductive GenOption where
  | withStartTime (t : Int)
  | withTimeUnit (d : Int)
  | withTTL (d : Int)
  | withRenewFrequency (d : Int)
deriving Repr, DecidableEq

/-- Application of one option closure to the config.  `now` is the value of
`time.Now()` when the closure runs.  Mirrors `WithStartTime`, `WithTimeUnit`,
`WithTTL` and `WithRenewFrequency`. -/
def applyOption (now : Int) (c : generatorConfig) :
    GenOption → Except OptionErr generatorConfig
  | .withStartTime t =>
      if t > now then .error .invalidStartTime
      else .ok { c with startTime := t }
  | .withTimeUnit d =>
      if d < nsPerMs then .error .invalidTimeUnit
      else .ok { c with timeUnit := d }
  | .withTTL d =>
      if d ≤ 0 then .error .ttlNotPositive
      else .ok { c with ttl := d }
  | .withRenewFrequency d =>
      if d ≤ 0 then .error .renewFreqNotPositive
      else .ok { c with renewFreq := d }

/-- The option-application loop in `New`, stopping at the first failure. -/
def applyOptions (now : Int) (c : generatorConfig) :
    List GenOption → Except OptionErr generatorConfig
  | [] => .ok c
  | o :: os =>
      match applyOption now c o with
      | .error e => .error e
      | .ok c' => applyOptions now c' os

/-- Construction errors of `New` that the claims distinguish. -/
inductive GenErr where
  | repoRequired                       -- "sonyflakex repo is required"
  | applyOptionFailed (e : OptionErr)  -- "apply option failed: %w"
  | invalidStartTime                   -- ErrInvalidStartTime (validateConfig)
  | invalidTimeUnit                    -- ErrInvalidTimeUnit (validateConfig)
  | ttlOrRenewFreqNotPositive          -- "TTL and renew frequency must be positive"
  | renewFreqNotLessThanTTL            -- "renew frequency must be less than TTL"
  | acquireFailed (msg : String)       -- wraps ErrAcquireMachineID
  | machineIDExceedsBitSpace (id : Int)
  | sonyflakeNewFailed (msg : String)  -- "sonyflake initialization failed: %w"
  | releaseFailed (msg : String)       -- wraps ErrReleaseMachineID (Stop)
deriving Repr, DecidableEq

/-- Go `errors.Is(err, ErrInvalidStartTime)`: the error is `ErrInvalidStartTime`,
possibly wrapped by the option-application `fmt.Errorf`. -/
def GenErr.isInvalidStartTime : GenErr → Bool
  | .applyOptionFailed .invalidStartTime => true
  | .invalidStartTime => true
  | _ => false

/-- Source `validateConfig`, returning the first failing check, in source order. -/
def validateConfig (now : Int) (cfg : generatorConfig) : Option GenErr :=
  if cfg.startTime > now then some .invalidStartTime
  else if cfg.timeUnit < nsPerMs then some .invalidTimeUnit
  else if cfg.ttl ≤ 0 ∨ cfg.renewFreq ≤ 0 then some .ttlOrRenewFreqNotPositive
  else if cfg.renewFreq ≥ cfg.ttl then some .renewFreqNotLessThanTTL
  else none

/-- The coordination store, modelled by the result its `AcquireMachineID`
returns during construction.  (The results of `ReleaseMachineID` during
construction are discarded by `New`; the release result observed by `Stop`
is a separate input of the `Stop` model.) -/
structure Repo where
  acquireResult : Except String Int
deriving Repr

/-- A call made against the coordination store, for trace recording. -/
inductive RepoCall where
  | acquire
  | release (machineID : Int)
  | renew (machineID : Int)
deriving Repr, DecidableEq

/-- Modelled from the spec: the identifier encoder's mutable state (§3, §4.1)
standing in for the external `sonyflake.Sonyflake`:
epoch, time unit, fixed machine ID, last-seen elapsed-time-units value and
current sequence value.  The encoder itself is not part of this repository's
sources. -/
structure SfState where
  startTime : Int
  timeUnit : Int
  machineID : Int
  lastElapsed : Int
  sequence : Int
deriving Repr, DecidableEq

/-- Modelled from the spec: fresh encoder state produced by a successful
external `sonyflake.New` call, for settings whose `MachineID` closure returns
`machineID`. -/
def SfState.init (cfg : generatorConfig) (machineID : Int) : SfState :=
  { startTime := cfg.startTime
    timeUnit := cfg.timeUnit
    machineID := machineID
    lastElapsed := 0
    sequence := 0 }

/-- The `Generator` struct: encoder, leased machine ID, the one-shot stop
guard (`stopOnce` plus the memoised `stopErr`), and the lease timings. -/
structure Generator where
  sf : SfState
  machineID : Int
  stopped : Bool
  stopErr : Option GenErr
  ttl : Int
  renewFreq : Int
deriving Repr, DecidableEq

/-- Construction: `New repo opts now sfNew`. Construction of a Generator.
`now` is the construction-time clock; `sfNew` is the outcome of the external
`sonyflake.New` library call (its library-internal checks are outside this
repository).  Returns the result together with the trace of coordination-store
calls made, in order. -/
def New (repo : Option Repo) (opts : List GenOption) (now : Int)
    (sfNew : Except String Unit) : Except GenErr Generator × List RepoCall :=
  match repo with
  | none => (.error .repoRequired, [])
  | some r =>
      match applyOptions now defaultGeneratorConfig opts with
      | .error e => (.error (.applyOptionFailed e), [])
      | .ok cfg =>
          match validateConfig now cfg with
          | some e => (.error e, [])
          | none =>
              match r.acquireResult with
              | .error msg => (.error (.acquireFailed msg), [.acquire])
              | .ok machineID =>
                  if machineID < 0 ∨ machineID ≥ 2 ^ defaultBitsMachine then
                    (.error (.machineIDExceedsBitSpace machineID),
                     [.acquire, .release machineID])
                  else
                    match sfNew with
                    | .error msg =>
                        (.error (.sonyflakeNewFailed msg),
                         [.acquire, .release machineID])
                    | .ok _ =>
                        (.ok { sf := SfState.init cfg machineID
                               machineID := machineID
                               stopped := false
                               stopErr := none
                               ttl := cfg.ttl
                               renewFreq := cfg.renewFreq },
                         [.acquire])

/-- Returns `true` iff an `Except` is in its error case. -/
def isErr {ε α : Type} : Except ε α → Bool
  | .error _ => true
  | .ok _ => false

/-! The identifier encoder, modelled from the spec (§3, §4.1) -/

/-- Modelled from the spec: the per-call failures of the encoder's `NextID`
(§4.1 step 1). -/
inductive SfErr where
  | clockBeforeEpoch   -- now < epoch
  | timeOverflow       -- elapsed does not fit in the time-field width
deriving Repr, DecidableEq

/-- Modelled from the spec: pack `(elapsed, machineID, sequence)`
most-significant-first with the 39/16/8 split (§3). -/
def packID (elapsed machineID sequence : Int) : Int :=
  elapsed * 2 ^ (defaultBitsMachine + defaultBitsSequence) +
    machineID * 2 ^ defaultBitsSequence + sequence

/-- Modelled from the spec: `NextID` (§4.1), one call at clock instant `now`.
Returns the identifier, the updated encoder state, and the clock instant at
which the call returns (later than `now` only in the sequence-exhaustion
case, where the call busy-waits until the clock reaches the next time unit).
The spec's step 2 applies whenever the clock has not advanced past
`lastElapsed`; step 3 applies whenever it has. -/
def NextID (s : SfState) (now : Int) : Except SfErr (Int × SfState × Int) :=
  if now < s.startTime then .error .clockBeforeEpoch
  else
    let elapsed := (now - s.startTime) / s.timeUnit
    if elapsed ≥ 2 ^ bitsTime then .error .timeOverflow
    else if elapsed > s.lastElapsed then
      .ok (packID elapsed s.machineID 0,
           { s with lastElapsed := elapsed, sequence := 0 }, now)
    else
      let seq := s.sequence + 1
      if seq ≥ 2 ^ defaultBitsSequence then
        let elapsed' := s.lastElapsed + 1
        .ok (packID elapsed' s.machineID 0,
             { s with lastElapsed := elapsed', sequence := 0 },
             max now (s.startTime + elapsed' * s.timeUnit))
      else
        .ok (packID s.lastElapsed s.machineID seq,
             { s with sequence := seq }, now)

/-- Modelled from the spec: `ToTime` (§4.1) — extract the elapsed-units field
and return `epoch + elapsed * timeUnit`. -/
def ToTime (s : SfState) (id : Int) : Int :=
  s.startTime + id / 2 ^ (defaultBitsMachine + defaultBitsSequence) * s.timeUnit

/-- Modelled from the spec: the record returned by `Decompose` (§4.1) — the
three fields plus the original identifier. -/
structure DecomposedID where
  id : Int
  time : Int
  machineID : Int
  sequence : Int
deriving Repr, DecidableEq

/-- Modelled from the spec: `Decompose` (§4.1) — extract all three fields. -/
def Decompose (id : Int) : DecomposedID :=
  { id := id
    time := id / 2 ^ (defaultBitsMachine + defaultBitsSequence)
    machineID := id / 2 ^ defaultBitsSequence % 2 ^ defaultBitsMachine
    sequence := id % 2 ^ defaultBitsSequence }

/-- A sequence of sequential `NextID` calls.  `clock` is the instant the
previous call returned at and `samples` the instants the successive calls are
issued at; a call issued while the previous one is still busy-waiting takes
effect when the wait ends (`max clock t`), so the effective clock is
monotone.  Fails at the first failing call. -/
def runNextID (s : SfState) (clock : Int) :
    List Int → Except SfErr (List Int)
  | [] => .ok []
  | t :: ts =>
      match NextID s (max clock t) with
      | .error e => .error e
      | .ok (id, s', after) =>
          match runNextID s' after ts with
          | .error e => .error e
          | .ok ids => .ok (id :: ids)

/-! Models of `Stop` and the heartbeat. -/

/-- Source `Stop`, one call.  `releaseResult` is what the repo's `ReleaseMachineID`
returns if this call performs the teardown (`none` = nil error).  The
`sync.Once` guard is the `stopped` flag: the first call signals the heartbeat,
waits for it to exit, releases the machine ID once and memoises the outcome in
`stopErr`; every later call performs nothing and returns the memoised outcome.
Returns the updated generator, the call's result, and the trace of
coordination-store calls this call makes. -/
def Stop (g : Generator) (releaseResult : Option String) :
    Generator × Option GenErr × List RepoCall :=
  if g.stopped then (g, g.stopErr, [])
  else
    let err := releaseResult.map fun msg => GenErr.releaseFailed msg
    ({ g with stopped := true, stopErr := err }, err, [.release g.machineID])

/-- A sequence of `Stop` calls, one per element of `rels` (each element the
release outcome the repo would produce if that call released).  Returns the
results observed by the callers, in order, and the combined trace of
coordination-store calls. -/
def stopRun (g : Generator) :
    List (Option String) → List (Option GenErr) × List RepoCall
  | [] => ([], [])
  | r :: rs =>
      let (g', res, tr) := Stop g r
      let (resL, trL) := stopRun g' rs
      (res :: resL, tr ++ trL)

/-- One resolution of the heartbeat loop's `select`: either the ticker fired
(`tick`) or the closed stop channel was observed (`sig`). -/
inductive HbEv where
  | tick
  | sig
deriving Repr, DecidableEq

/-- An event in the lifetime of a stopping generator:
a `RenewMachineID` call by the heartbeat, the heartbeat's exit
(`close(doneChan)`), or the `ReleaseMachineID` call by `Stop`. -/
inductive Ev where
  | renew (machineID : Int)
  | hbExit
  | release (machineID : Int)
deriving Repr, DecidableEq

/-- The `heartbeat` loop: each `select` resolution either performs a renewal
and loops, or observes the stop signal and returns (closing `doneChan`).
`sched` is the sequence of `select` resolutions. -/
def heartbeat (machineID : Int) : List HbEv → List Ev
  | [] => []
  | .tick :: rest => .renew machineID :: heartbeat machineID rest
  | .sig :: _ => [.hbExit]

/-- The event trace of an execution of `Stop` that performs the teardown:
`Stop` closes the stop channel, waits on `doneChan` — so the heartbeat's whole
trace, ending in its exit, precedes everything `Stop` does next — and then
calls `ReleaseMachineID`.  After the heartbeat has returned, no code path of
the generator performs renewals, so the generator's trace ends here. -/
def stopTrace (machineID : Int) (sched : List HbEv) : List Ev :=
  heartbeat machineID sched ++ [.release machineID]

/-! Invariants and helper lemmas. -/

/-- The encoder-state invariant: the machine ID fits its field, the sequence
fits its field, and the elapsed-units counter is nonnegative. -/
def SfInv (s : SfState) : Prop :=
  0 ≤ s.machineID ∧ s.machineID < 2 ^ defaultBitsMachine ∧
    0 ≤ s.sequence ∧ s.sequence < 2 ^ defaultBitsSequence ∧ 0 ≤ s.lastElapsed

/-- The identifier corresponding to an encoder state's current
`(lastElapsed, machineID, sequence)` triple. -/
def stateID (s : SfState) : Int :=
  packID s.lastElapsed s.machineID s.sequence

theorem New_ok_inv {repo : Option Repo} {opts : List GenOption} {now : Int}
    {sfNew : Except String Unit} {g : Generator} {tr : List RepoCall}
    (h : New repo opts now sfNew = (.ok g, tr)) :
    g.stopped = false ∧ g.stopErr = none ∧ g.sf.machineID = g.machineID ∧
      SfInv g.sf := by
  cases repo with
  | none => simp [New] at h
  | some r =>
      simp only [New] at h
      split at h
      · simp at h
      · split at h
        · simp at h
        · split at h
          · simp at h
          · rename_i mid hacq
            split at h
            · simp at h
            · rename_i hrange
              split at h
              · simp at h
              · rw [Prod.mk.injEq] at h
                obtain ⟨hg, -⟩ := h
                rw [Except.ok.injEq] at hg
                subst hg
                push_neg at hrange
                refine ⟨rfl, rfl, rfl, ?_⟩
                simp only [SfInv, SfState.init, defaultBitsMachine,
                  defaultBitsSequence]
                norm_num
                exact ⟨hrange.1, hrange.2⟩

theorem NextID_ok_step {s : SfState} {now id : Int} {s' : SfState} {a : Int}
    (hinv : SfInv s) (h : NextID s now = .ok (id, s', a)) :
    SfInv s' ∧ id = stateID s' ∧ stateID s < stateID s' ∧
      s'.machineID = s.machineID ∧ s'.startTime = s.startTime ∧
      s'.timeUnit = s.timeUnit := by
  obtain ⟨hm0, hm1, hq0, hq1, hl0⟩ := hinv
  simp only [defaultBitsMachine, defaultBitsSequence] at hm1 hq1
  norm_num at hm1 hq1
  simp only [NextID] at h
  split_ifs at h with h1 h2 h3 h4
  · simp only [Except.ok.injEq, Prod.mk.injEq] at h
    obtain ⟨hid, hs, -⟩ := h
    subst hid; subst hs
    clear h2
    generalize he : (now - s.startTime) / s.timeUnit = e at h3 ⊢
    simp only [SfInv, stateID, packID, defaultBitsMachine, defaultBitsSequence]
    norm_num
    omega
  · simp only [Except.ok.injEq, Prod.mk.injEq] at h
    obtain ⟨hid, hs, -⟩ := h
    subst hid; subst hs
    clear h2 h3 h4
    simp only [SfInv, stateID, packID, defaultBitsMachine, defaultBitsSequence]
    norm_num
    omega
  · simp only [Except.ok.injEq, Prod.mk.injEq] at h
    obtain ⟨hid, hs, -⟩ := h
    subst hid; subst hs
    clear h2 h3
    simp only [defaultBitsSequence] at h4
    norm_num at h4
    simp only [SfInv, stateID, packID, defaultBitsMachine, defaultBitsSequence]
    norm_num
    omega

theorem runNextID_strict_mono {ts : List Int} {s : SfState} {clock : Int}
    {ids : List Int} (hinv : SfInv s)
    (h : runNextID s clock ts = .ok ids) :
    ids.Pairwise (· < ·) ∧ ∀ j ∈ ids, stateID s < j := by
  induction ts generalizing s clock ids with
  | nil =>
      simp only [runNextID, Except.ok.injEq] at h
      subst h
      simp
  | cons t ts ih =>
      simp only [runNextID] at h
      split at h
      · exact absurd h (by simp)
      · rename_i step id s' after hstep
        split at h
        · exact absurd h (by simp)
        · rename_i rest ids' hrest
          rw [Except.ok.injEq] at h
          subst h
          obtain ⟨hinv', hid, hlt, -, -, -⟩ := NextID_ok_step hinv hstep
          obtain ⟨hpw, hgt⟩ := ih hinv' hrest
          refine ⟨List.pairwise_cons.2 ⟨fun j hj => ?_, hpw⟩, ?_⟩
          · exact hid ▸ hgt j hj
          · intro j hj
            rcases List.mem_cons.1 hj with hj | hj
            · exact hj ▸ hid ▸ hlt
            · exact lt_trans hlt (hid ▸ hgt j hj)

theorem Decompose_packID {e m q : Int} (he : 0 ≤ e) (hm0 : 0 ≤ m)
    (hm1 : m < 2 ^ defaultBitsMachine) (hq0 : 0 ≤ q)
    (hq1 : q < 2 ^ defaultBitsSequence) :
    Decompose (packID e m q) =
      { id := packID e m q, time := e, machineID := m, sequence := q } := by
  simp only [defaultBitsMachine, defaultBitsSequence] at hm1 hq1 ⊢
  norm_num at hm1 hq1
  simp only [Decompose, packID, defaultBitsMachine, defaultBitsSequence,
    DecomposedID.mk.injEq]
  norm_num
  refine ⟨?_, ?_, ?_⟩ <;> omega

theorem runNextID_decompose {ts : List Int} {s : SfState} {clock : Int}
    {ids : List Int} (hinv : SfInv s)
    (h : runNextID s clock ts = .ok ids) :
    ∀ j ∈ ids, (Decompose j).machineID = s.machineID ∧ 0 ≤ (Decompose j).time := by
  induction ts generalizing s clock ids with
  | nil =>
      simp only [runNextID, Except.ok.injEq] at h
      subst h
      simp
  | cons t ts ih =>
      simp only [runNextID] at h
      split at h
      · exact absurd h (by simp)
      · rename_i step id s' after hstep
        split at h
        · exact absurd h (by simp)
        · rename_i rest ids' hrest
          rw [Except.ok.injEq] at h
          subst h
          obtain ⟨hinv', hid, -, hmach, -, -⟩ := NextID_ok_step hinv hstep
          intro j hj
          rcases List.mem_cons.1 hj with hj | hj
          · subst hj
            obtain ⟨hm0, hm1, hq0, hq1, hl0⟩ := hinv'
            rw [hid, stateID, Decompose_packID hl0 hm0 hm1 hq0 hq1]
            exact ⟨hmach, hl0⟩
          · obtain ⟨h1, h2⟩ := ih hinv' hrest j hj
            exact ⟨hmach ▸ h1, h2⟩

theorem stopRun_stopped {g : Generator} (hst : g.stopped = true)
    (rels : List (Option String)) :
    stopRun g rels = (List.replicate rels.length g.stopErr, []) := by
  induction rels with
  | nil => simp [stopRun]
  | cons r rs ih => simp [stopRun, Stop, hst, ih, List.replicate_succ]

/-- The number of ticker firings the heartbeat serves before it observes the
stop signal. -/
def ticksBeforeStop (sched : List HbEv) : Nat :=
  (sched.takeWhile fun e => e == HbEv.tick).length

/-- Fixtures for evaluating the theorems on concrete inputs. -/
def repoW : Repo := { acquireResult := .ok 7 }

/-- A construction instant one second past the default start time. -/
def nowW : Int := defaultStartTime + nsPerSec

/-- The configuration `[.withTTL 1, .withRenewFrequency 1]` produces: the
defaults with a 1ns TTL and a 1ns renewal interval (`renewFreq ≥ ttl`). -/
def cfgBadW : generatorConfig :=
  { startTime := defaultStartTime
    timeUnit := 10 * nsPerMs
    ttl := 1
    renewFreq := 1 }

/-- The generator `New (some repoW) [] nowW (.ok ())` constructs. -/
def genW : Generator :=
  { sf := SfState.init defaultGeneratorConfig 7
    machineID := 7
    stopped := false
    stopErr := none
    ttl := 30 * nsPerSec
    renewFreq := 10 * nsPerSec }

/-! The claims. -/

/-- C1: Stop is idempotent: for every constructed Generator, however many
times `Stop` is invoked, the underlying `ReleaseMachineID` operation is
invoked exactly once (the trace of a whole sequence of `Stop` calls is the
single release), and every `Stop` call after the first performs no teardown
and returns the same result (error or nil) as the first call. -/
theorem Stop_idempotent {repo : Option Repo} {opts : List GenOption}
    {now : Int} {sfNew : Except String Unit} {g : Generator}
    {tr₀ : List RepoCall} (hnew : New repo opts now sfNew = (.ok g, tr₀))
    (r : Option String) (rs : List (Option String)) :
    stopRun g (r :: rs) =
      (List.replicate (rs.length + 1) (r.map GenErr.releaseFailed),
       [RepoCall.release g.machineID]) := by
  obtain ⟨hstop, -, -, -⟩ := New_ok_inv hnew
  simp only [stopRun, Stop, hstop, Bool.false_eq_true, if_false,
    List.replicate_succ]
  rw [stopRun_stopped (g := { g with stopped := true, stopErr := r.map GenErr.releaseFailed }) rfl rs]
  simp

/-- C1 witness: two `Stop` calls on a freshly constructed generator, the
first observing release error "x": both callers see the same error and the
store is released once. -/
theorem Stop_idempotent_witness :
    stopRun genW [some "x", none] =
      (List.replicate 2 (some (GenErr.releaseFailed "x")),
       [RepoCall.release genW.machineID]) :=
  @Stop_idempotent (some repoW) [] nowW (.ok ()) genW [.acquire]
    (by rfl) (some "x") [none]

/-- C2: in every execution of `Stop` that tears down, the heartbeat is first
signalled, serves only the ticks scheduled before it observes the signal,
and has fully exited (`hbExit`) before `ReleaseMachineID` is called; the
release is the final event, so no renewal ever occurs after it. -/
theorem Stop_waits_for_heartbeat_exit (machineID : Int) (sched : List HbEv)
    (h : HbEv.sig ∈ sched) :
    stopTrace machineID sched =
      List.replicate (ticksBeforeStop sched) (Ev.renew machineID) ++
        [Ev.hbExit, Ev.release machineID] := by
  induction sched with
  | nil => simp at h
  | cons ev rest ih =>
      cases ev with
      | tick =>
          have hr : HbEv.sig ∈ rest := by
            rcases List.mem_cons.1 h with h' | h'
            · exact absurd h' (by simp)
            · exact h'
          exact congrArg (List.cons (Ev.renew machineID)) (ih hr)
      | sig => rfl

/-- C2 witness: one tick, then the signal: the renewal precedes the exit,
which precedes the release, which is final. -/
theorem Stop_waits_for_heartbeat_exit_witness :
    stopTrace 7 [HbEv.tick, HbEv.sig] =
      List.replicate (ticksBeforeStop [HbEv.tick, HbEv.sig]) (Ev.renew 7) ++
        [Ev.hbExit, Ev.release 7] :=
  Stop_waits_for_heartbeat_exit 7 [HbEv.tick, HbEv.sig] (by simp)

/-- C3: when the acquired machine ID does not fit the 16-bit field (negative
or ≥ 65536), `New` fails, returns no Generator, and invokes
`ReleaseMachineID` exactly once on the acquired ID before returning. -/
theorem machineID_out_of_range_released_once
    {r : Repo} {opts : List GenOption} {now : Int}
    {sfNew : Except String Unit} {cfg : generatorConfig} {mid : Int}
    (hcfg : applyOptions now defaultGeneratorConfig opts = .ok cfg)
    (hval : validateConfig now cfg = none)
    (hacq : r.acquireResult = .ok mid)
    (hbad : mid < 0 ∨ mid ≥ 2 ^ defaultBitsMachine) :
    New (some r) opts now sfNew =
      (.error (.machineIDExceedsBitSpace mid), [.acquire, .release mid]) ∧
    (New (some r) opts now sfNew).2.count (RepoCall.release mid) = 1 := by
  have hmain : New (some r) opts now sfNew =
      (.error (.machineIDExceedsBitSpace mid), [.acquire, .release mid]) := by
    simp [New, hcfg, hval, hacq, hbad]
  exact ⟨hmain, by rw [hmain]; simp⟩

/-- C3 witness: the store hands out machine ID 70000 (≥ 65536): construction
fails and the trace is acquire-then-release of 70000. -/
theorem machineID_out_of_range_released_once_witness :
    New (some { acquireResult := .ok 70000 }) [] nowW (.ok ()) =
      (.error (.machineIDExceedsBitSpace 70000),
       [.acquire, .release 70000]) ∧
    (New (some { acquireResult := .ok 70000 }) [] nowW (.ok ())).2.count
      (RepoCall.release 70000) = 1 :=
  machineID_out_of_range_released_once (by rfl) (by rfl) (by rfl)
    (by norm_num [defaultBitsMachine])

/-- C4: `New` fails on every invalid configuration — a nil repo, a failing
option (time unit below 1ms, non-positive TTL or renewal interval), or a
surviving configuration with time unit below 1ms, non-positive TTL or
renewal interval, or `renewFreq ≥ ttl` — and in every such case the
coordination store is never consulted: the call trace is empty, so
`AcquireMachineID` is never called. -/
theorem invalid_config_fails_before_acquire
    (repo : Option Repo) (opts : List GenOption) (now : Int)
    (sfNew : Except String Unit)
    (hbad : repo = none ∨
      isErr (applyOptions now defaultGeneratorConfig opts) = true ∨
      ∃ cfg, applyOptions now defaultGeneratorConfig opts = .ok cfg ∧
        (cfg.timeUnit < nsPerMs ∨ cfg.ttl ≤ 0 ∨ cfg.renewFreq ≤ 0 ∨
          cfg.renewFreq ≥ cfg.ttl)) :
    isErr (New repo opts now sfNew).1 = true ∧
      (New repo opts now sfNew).2 = [] := by
  rcases hbad with h | h | ⟨cfg, hcfg, hb⟩
  · subst h; simp [New, isErr]
  · cases repo with
    | none => simp [New, isErr]
    | some r =>
        cases hao : applyOptions now defaultGeneratorConfig opts with
        | error e => simp [New, hao, isErr]
        | ok cfg => rw [hao] at h; simp [isErr] at h
  · cases repo with
    | none => simp [New, isErr]
    | some r =>
        obtain ⟨e, hv⟩ : ∃ e, validateConfig now cfg = some e := by
          unfold validateConfig
          split_ifs with h1 h2 h3 h4
          · exact ⟨_, rfl⟩
          · exact ⟨_, rfl⟩
          · exact ⟨_, rfl⟩
          · exact ⟨_, rfl⟩
          · exfalso; rcases hb with hb | hb | hb | hb <;> omega
        simp [New, hcfg, hv, isErr]

/-- C4 witness: TTL 1ns with renewal interval 1ns (`renewFreq ≥ ttl`):
construction fails and no store call is made. -/
theorem invalid_config_fails_before_acquire_witness :
    isErr (New (some repoW) [.withTTL 1, .withRenewFrequency 1] nowW
      (.ok ())).1 = true ∧
    (New (some repoW) [.withTTL 1, .withRenewFrequency 1] nowW (.ok ())).2
      = [] :=
  invalid_config_fails_before_acquire (some repoW)
    [.withTTL 1, .withRenewFrequency 1] nowW (.ok ())
    (Or.inr (Or.inr ⟨cfgBadW, by rfl, by norm_num [cfgBadW]⟩))

/-- C5 counterexample: a start time exactly equal to the construction-time
clock is accepted — `New` succeeds rather than failing with
`ErrInvalidStartTime`, because both `WithStartTime` and `validateConfig` use
the strict `t.After(now)` test. -/
theorem start_time_equal_now_accepted :
    isErr (New (some { acquireResult := .ok 7 })
      [.withStartTime defaultStartTime] defaultStartTime (.ok ())).1
      = false := by rfl

/-- C5 (amended): `New` rejects every start time strictly in the future:
for `t > now`, construction via `WithStartTime t` fails with
`ErrInvalidStartTime` (wrapped by the option-application error) before any
store call, and likewise the default start time is rejected by
`validateConfig` when it lies strictly after `now`; a start time equal to
`now` is accepted. -/
theorem future_start_time_rejected (r : Repo) (t now : Int)
    (sfNew : Except String Unit) (h : t > now) :
    (New (some r) [.withStartTime t] now sfNew =
      (.error (.applyOptionFailed .invalidStartTime), []) ∧
     GenErr.isInvalidStartTime (.applyOptionFailed .invalidStartTime) = true) ∧
    (defaultStartTime > now →
      New (some r) [] now sfNew = (.error .invalidStartTime, []) ∧
      GenErr.isInvalidStartTime .invalidStartTime = true) := by
  refine ⟨⟨?_, rfl⟩, fun hd => ⟨?_, rfl⟩⟩
  · simp [New, applyOptions, applyOption, h]
  · simp [New, applyOptions, validateConfig, defaultGeneratorConfig, hd]

/-- C5 witness: start time 1ns in the future of a pre-2025 construction
instant: both the option path and the default-config path reject with
`ErrInvalidStartTime`. -/
theorem future_start_time_rejected_witness :
    (New (some repoW) [.withStartTime 1] 0 (.ok ()) =
      (.error (.applyOptionFailed .invalidStartTime), []) ∧
     GenErr.isInvalidStartTime (.applyOptionFailed .invalidStartTime) = true) ∧
    (defaultStartTime > 0 →
      New (some repoW) [] 0 (.ok ()) = (.error .invalidStartTime, []) ∧
      GenErr.isInvalidStartTime .invalidStartTime = true) :=
  future_start_time_rejected repoW 1 0 (.ok ()) (by norm_num)

/-- C6: when `AcquireMachineID` fails, `New` fails with an error wrapping
`ErrAcquireMachineID`, returns no Generator, and performs no cleanup:
`ReleaseMachineID` and `RenewMachineID` are never called. -/
theorem acquire_failure_no_cleanup
    {r : Repo} {opts : List GenOption} {now : Int}
    {sfNew : Except String Unit} {cfg : generatorConfig} {msg : String}
    (hcfg : applyOptions now defaultGeneratorConfig opts = .ok cfg)
    (hval : validateConfig now cfg = none)
    (hacq : r.acquireResult = .error msg) :
    New (some r) opts now sfNew = (.error (.acquireFailed msg), [.acquire]) ∧
    ∀ m, RepoCall.release m ∉ (New (some r) opts now sfNew).2 ∧
      RepoCall.renew m ∉ (New (some r) opts now sfNew).2 := by
  have hmain : New (some r) opts now sfNew =
      (.error (.acquireFailed msg), [.acquire]) := by
    simp [New, hcfg, hval, hacq]
  exact ⟨hmain, fun m => by rw [hmain]; simp⟩

/-- C6 witness: the store is down ("down"): construction fails having made
only the acquire call; no release or renew of machine ID 7 appears. -/
theorem acquire_failure_no_cleanup_witness :
    New (some { acquireResult := .error "down" }) [] nowW (.ok ()) =
      (.error (.acquireFailed "down"), [.acquire]) ∧
    RepoCall.release 7 ∉
      (New (some { acquireResult := .error "down" }) [] nowW (.ok ())).2 ∧
    RepoCall.renew 7 ∉
      (New (some { acquireResult := .error "down" }) [] nowW (.ok ())).2 :=
  ⟨(acquire_failure_no_cleanup (by rfl) (by rfl) (by rfl)).1,
   (acquire_failure_no_cleanup (by rfl) (by rfl) (by rfl)).2 7⟩

/-- C7: every sequence of successful sequential `NextID` calls on one
constructed Generator returns pairwise-distinct, strictly increasing
identifiers (hence also non-decreasing in call order). -/
theorem NextID_strictly_increasing {repo : Option Repo}
    {opts : List GenOption} {now₀ : Int} {sfNew : Except String Unit}
    {g : Generator} {tr : List RepoCall} {clock : Int} {ts ids : List Int}
    (hnew : New repo opts now₀ sfNew = (.ok g, tr))
    (hrun : runNextID g.sf clock ts = .ok ids) :
    ids.Pairwise (· < ·) ∧ ids.Pairwise (· ≠ ·) := by
  obtain ⟨-, -, -, hinv⟩ := New_ok_inv hnew
  obtain ⟨hpw, -⟩ := runNextID_strict_mono hinv hrun
  exact ⟨hpw, hpw.imp ne_of_lt⟩

/-- C7 witness: two calls in the same 10ms unit one second after the epoch
give 1677723392 then 1677723393 — strictly increasing and distinct. -/
theorem NextID_strictly_increasing_witness :
    ([1677723392, 1677723393] : List Int).Pairwise (· < ·) ∧
    ([1677723392, 1677723393] : List Int).Pairwise (· ≠ ·) :=
  @NextID_strictly_increasing (some repoW) [] nowW (.ok ()) genW [.acquire]
    0 [nowW, nowW] [1677723392, 1677723393] (by rfl) (by rfl)

/-- C8: every identifier returned by a successful `NextID` call on a
constructed Generator decomposes to a machine-id component equal to the
Generator's leased machine ID, and to a time component consistent with
`ToTime` of the identifier: `ToTime id = epoch + time-field * timeUnit`. -/
theorem Decompose_NextID_roundtrip {repo : Option Repo}
    {opts : List GenOption} {now₀ : Int} {sfNew : Except String Unit}
    {g : Generator} {tr : List RepoCall} {clock : Int} {ts ids : List Int}
    (hnew : New repo opts now₀ sfNew = (.ok g, tr))
    (hrun : runNextID g.sf clock ts = .ok ids) :
    ∀ id ∈ ids, (Decompose id).machineID = g.machineID ∧
      ToTime g.sf id = g.sf.startTime + (Decompose id).time * g.sf.timeUnit := by
  obtain ⟨-, -, hmach, hinv⟩ := New_ok_inv hnew
  intro id hid
  obtain ⟨h1, -⟩ := runNextID_decompose hinv hrun id hid
  exact ⟨hmach ▸ h1, rfl⟩

/-- C8 witness: the first identifier of the run decomposes to machine ID 7
(`genW`'s leased ID) and its `ToTime` agrees with its time field. -/
theorem Decompose_NextID_roundtrip_witness :
    (Decompose 1677723392).machineID = genW.machineID ∧
    ToTime genW.sf 1677723392 =
      genW.sf.startTime + (Decompose 1677723392).time * genW.sf.timeUnit :=
  @Decompose_NextID_roundtrip (some repoW) [] nowW (.ok ()) genW [.acquire]
    0 [nowW, nowW] [1677723392, 1677723393] (by rfl) (by rfl)
    1677723392 (by simp)

/-- C9: if the external sonyflake encoder's construction fails after a
machine ID was successfully acquired (and found in range), `New` calls
`ReleaseMachineID` exactly once on that ID and returns the wrapped error —
no post-acquisition construction failure leaks the lease. -/
theorem encoder_new_failure_released_once
    {r : Repo} {opts : List GenOption} {now : Int} {msg : String}
    {cfg : generatorConfig} {mid : Int}
    (hcfg : applyOptions now defaultGeneratorConfig opts = .ok cfg)
    (hval : validateConfig now cfg = none)
    (hacq : r.acquireResult = .ok mid)
    (hmid0 : 0 ≤ mid) (hmid1 : mid < 2 ^ defaultBitsMachine) :
    New (some r) opts now (.error msg) =
      (.error (.sonyflakeNewFailed msg), [.acquire, .release mid]) ∧
    (New (some r) opts now (.error msg)).2.count (RepoCall.release mid)
      = 1 := by
  have hrange : ¬(mid < 0 ∨ mid ≥ 2 ^ defaultBitsMachine) := by
    push_neg
    exact ⟨hmid0, hmid1⟩
  have hmain : New (some r) opts now (.error msg) =
      (.error (.sonyflakeNewFailed msg), [.acquire, .release mid]) := by
    simp [New, hcfg, hval, hacq, hrange]
  exact ⟨hmain, by rw [hmain]; simp⟩

/-- C9 witness: the encoder rejects its settings ("bad settings") after
machine ID 7 was acquired: the trace is acquire then a single release of 7. -/
theorem encoder_new_failure_released_once_witness :
    New (some repoW) [] nowW (.error "bad settings") =
      (.error (.sonyflakeNewFailed "bad settings"),
       [.acquire, .release 7]) ∧
    (New (some repoW) [] nowW (.error "bad settings")).2.count
      (RepoCall.release 7) = 1 :=
  encoder_new_failure_released_once (by rfl) (by rfl) (by rfl)
    (by norm_num) (by norm_num [defaultBitsMachine])

/-- C10: `NextID` remains fully functional after `Stop`: on a constructed
Generator, `NextID` after any `Stop` call behaves exactly as before it
(it consults neither the repo nor the shutdown state), and any identifier
it returns still carries the Generator's (now released) machine ID. -/
theorem NextID_functional_after_Stop {repo : Option Repo}
    {opts : List GenOption} {now₀ : Int} {sfNew : Except String Unit}
    {g : Generator} {tr : List RepoCall}
    (hnew : New repo opts now₀ sfNew = (.ok g, tr))
    (rel : Option String) (now : Int) :
    NextID (Stop g rel).1.sf now = NextID g.sf now ∧
    ∀ id s' a, NextID g.sf now = .ok (id, s', a) →
      (Decompose id).machineID = g.machineID := by
  obtain ⟨-, -, hmach, hinv⟩ := New_ok_inv hnew
  constructor
  · have hsf : (Stop g rel).1.sf = g.sf := by
      unfold Stop
      split_ifs <;> rfl
    rw [hsf]
  · intro id s' a hstep
    obtain ⟨⟨hm0, hm1, hq0, hq1, hl0⟩, hid, -, hmach', -, -⟩ :=
      NextID_ok_step hinv hstep
    rw [hid, stateID, Decompose_packID hl0 hm0 hm1 hq0 hq1]
    rw [hmach']
    exact hmach

/-- C10 witness: after stopping `genW` (with a failing release), `NextID`
still behaves identically and the identifier it returns carries machine
ID 7. -/
theorem NextID_functional_after_Stop_witness :
    NextID (Stop genW (some "x")).1.sf nowW = NextID genW.sf nowW ∧
    (Decompose 1677723392).machineID = genW.machineID :=
  ⟨(@NextID_functional_after_Stop (some repoW) [] nowW (.ok ()) genW
      [.acquire] (by rfl) (some "x") nowW).1,
   (@NextID_functional_after_Stop (some repoW) [] nowW (.ok ()) genW
      [.acquire] (by rfl) (some "x") nowW).2 1677723392
      { startTime := defaultStartTime
        timeUnit := 10 * nsPerMs
        machineID := 7
        lastElapsed := 100
        sequence := 0 } nowW (by rfl)⟩

end Sonyflakex
